import Mathlib

/-
Verification of the finding pipeline of the AI PR review agent.

The development shallowly embeds the Python sources:
  src/pr_review_agent.py        (parse_findings, call_openrouter)
  src/ai_pr_reviewer/reporter.py (create_check_with_annotations)
  src/ai_pr_reviewer/ai_agent.py (copilot_adapter, mock_adapter)

Python strings are modelled as List Char.  The model covers inputs whose
whitespace and digits are ASCII: Python's str.strip, re's backslash-s and
backslash-d also accept some further Unicode characters, which no statement
here exercises.
-/

namespace S2P

def s2l (s : String) : List Char := s.data

/-- Whitespace characters stripped by Python str.strip and matched by the
regex class backslash-s (ASCII fragment): space, tab, LF, VT, FF, CR. -/
def isPySpace (c : Char) : Bool :=
  c.toNat == 32 || c.toNat == 9 || c.toNat == 10 ||
  c.toNat == 11 || c.toNat == 12 || c.toNat == 13

/-- Line-boundary characters of Python str.splitlines: LF, VT, FF, CR,
FS, GS, RS, NEL, LINE SEPARATOR, PARAGRAPH SEPARATOR.  CR LF counts as a
single boundary in Python; splitting on the two characters separately
yields one extra empty line, which parse_findings skips anyway. -/
def isLineBreak (c : Char) : Bool :=
  c.toNat == 10 || c.toNat == 11 || c.toNat == 12 || c.toNat == 13 ||
  c.toNat == 28 || c.toNat == 29 || c.toNat == 30 || c.toNat == 133 ||
  c.toNat == 8232 || c.toNat == 8233

/-- ASCII decimal digit, the fragment of the regex class backslash-d
exercised here. -/
def isAsciiDigit (c : Char) : Bool :=
  48 ≤ c.toNat && c.toNat ≤ 57

/-- Value of a decimal digit string, as Python int() computes it on a
string of ASCII digits. -/
def digitsVal (ds : List Char) : Nat :=
  ds.foldl (fun a c => 10 * a + (c.toNat - 48)) 0

/-- Fueled helper for natRepr; the fuel is structural so the definition
computes by reduction.  With fuel at least n the fuel never runs out. -/
def natReprAux : Nat → Nat → List Char
  | 0, n => [Char.ofNat (48 + n % 10)]
  | fuel + 1, n =>
    if n < 10 then [Char.ofNat (48 + n)]
    else natReprAux fuel (n / 10) ++ [Char.ofNat (48 + n % 10)]

/-- Decimal rendering of a natural number, as a Python f-string renders a
nonnegative int. -/
def natRepr (n : Nat) : List Char := natReprAux n n

/-- Python str.strip(): drop leading and trailing whitespace. -/
def pyStrip (s : List Char) : List Char :=
  ((s.dropWhile isPySpace).reverse.dropWhile isPySpace).reverse

/-- Python str.splitlines (see isLineBreak for the boundary set).  Python
returns no trailing empty line and returns the empty list on the empty
string; this version may produce extra empty lines in exactly those spots,
and parse_findings discards empty lines, so the difference is invisible
there. -/
def splitLines : List Char → List (List Char)
  | [] => [[]]
  | c :: rest =>
    if isLineBreak c then [] :: splitLines rest
    else
      match splitLines rest with
      | [] => [[c]]
      | l :: ls => (c :: l) :: ls

/-- Join lines with a newline between them, the inverse of splitLines on
break-free lines (and the model of a Python newline-joined block). -/
def joinNL : List (List Char) → List Char
  | [] => []
  | [l] => l
  | l :: rest => l ++ '\n' :: joinNL rest

/-- One parsed finding of pr_review_agent.parse_findings: the dict
with keys file, line, message built on its line 158. -/
structure Finding where
  file : List Char
  line : Nat
  message : List Char
deriving DecidableEq

/-- Embedding of the Python regex match
re.match(r'^([^:]+):(d+)s*-s*(.+)$', line) (d and s written for the
backslash classes) together with the group extraction of
pr_review_agent.py lines 155-158, for the whitespace-stripped lines the
parser feeds it.  Greedy matching with backtracking reduces to this
deterministic scan: the first group can only stop at the first colon, the
digit group only at the end of the maximal digit run, each s* only at the
end of the maximal whitespace run (a shorter choice would put a colon, a
digit or a whitespace character where the next literal must match), and
since the line is stripped the final group is the nonempty remainder.
The head discarded in the cons branch below is necessarily the first
colon of the line: it is the only character the first scan stops at. -/
def matchLine (l : List Char) : Option Finding :=
  let p := l.takeWhile (fun c => !(c == ':'))
  match l.dropWhile (fun c => !(c == ':')) with
  | [] => none
  | _ :: rest =>
    if p = [] then none
    else
      let d := rest.takeWhile isAsciiDigit
      if d = [] then none
      else
        match (rest.dropWhile isAsciiDigit).dropWhile isPySpace with
        | [] => none
        | c2 :: tail =>
          if c2 == '-' then
            let msg := tail.dropWhile isPySpace
            if msg = [] then none
            else some ⟨pyStrip p, digitsVal d, pyStrip msg⟩
          else none

/-- Embedding of pr_review_agent.parse_findings (lines 148-162): split the
text into lines, strip each, skip empty ones, turn each regex-matching
line into a finding and collect every other line; the summary is the first
20 collected lines joined by newlines.  Returns (summary, findings) as the
Python function does. -/
def parseStep (a : List Finding × List (List Char)) (l : List Char) :
    List Finding × List (List Char) :=
  match matchLine l with
  | some f => (a.1 ++ [f], a.2)
  | none => (a.1, a.2 ++ [l])

def parse_findings (text : List Char) : List Char × List Finding :=
  let ls := ((splitLines text).map pyStrip).filter (fun l => !l.isEmpty)
  let acc := ls.foldl parseStep ([], [])
  (joinNL (acc.2.take 20), acc.1)

/-
Reporter (src/ai_pr_reviewer/reporter.py).  Findings arrive as Python
dicts whose keys may be absent; an absent key is modelled as none.  The
string-typed fields model the usual case of string values (a non-string
value never compares equal to the severity literals, which the Option
model reflects by treating it as no signal).
-/

/-- A finding dict as the reporter reads it: every field is read with
dict.get and may be missing. -/
structure RFinding where
  file : Option (List Char) := none
  line : Option Int := none
  severity : Option (List Char) := none
  rtype : Option (List Char) := none
  message : Option (List Char) := none
deriving DecidableEq

/-- The dict with keys file, line, message that parse_findings builds,
viewed as a reporter-side finding: no severity, no type key. -/
def toRFinding (f : Finding) : RFinding :=
  { file := some f.file, line := some f.line, message := some f.message }

/-- Python str() of an optional string value, as an f-string renders it:
None prints as the four characters None. -/
def pyStrOpt : Option (List Char) → List Char
  | none => s2l "None"
  | some s => s

/-- Python expression f.get(key) or 1 on the line field: None and 0 are
falsy and give 1, any other int is kept (including negatives). -/
def lineOrOne : Option Int → Int
  | none => 1
  | some v => if v = 0 then 1 else v

/-- One element of the annotations list built in reporter.py lines 9-23. -/
structure Annot where
  path : List Char
  start_line : Int
  end_line : Int
  level : List Char
  message : List Char
  title : List Char
deriving DecidableEq

/-- The severity-to-level mapping of reporter.py lines 11-15: notice
unless severity is exactly the string high (failure) or medium (warning);
an absent severity key compares unequal to both and falls to notice. -/
def severityLevel (sev : Option (List Char)) : List Char :=
  if sev = some (s2l "high") then s2l "failure"
  else if sev = some (s2l "medium") then s2l "warning"
  else s2l "notice"

/-- The annotation dict appended for one finding, reporter.py lines
16-23. -/
def toAnnot (f : RFinding) : Annot :=
  { path := (f.file).getD []
  , start_line := lineOrOne f.line
  , end_line := lineOrOne f.line
  , level := severityLevel f.severity
  , message := pyStrOpt f.rtype ++ s2l ": " ++ pyStrOpt f.message
  , title := (f.rtype).getD (s2l "issue") }

/-- math.ceil(len(annotations) / batch_size) or 1 with batch_size 40:
ceiling division, with 0 replaced by 1 (Python or on a falsy int). -/
def total_batches (n : Nat) : Nat :=
  if (n + 39) / 40 = 0 then 1 else (n + 39) / 40

/-- The POST that creates the check run (reporter.py lines 29-30). -/
structure CreateCall where
  name : List Char
  head_sha : List Char
  status : List Char
deriving DecidableEq

/-- One PATCH of the update loop (reporter.py lines 35-43). -/
structure UpdateCall where
  title : List Char
  batch : List Annot
  status : List Char
  summary : List Char
  conclusion : List Char
deriving DecidableEq

/-- The update requests the loop of reporter.py lines 35-43 issues, in
order: batch i is annotations[i*40:(i+1)*40]; the last iteration sends
status completed and the summary, every earlier one sends in_progress and
an empty summary; every payload carries conclusion neutral. -/
def updateCalls (annotations : List Annot) (name summary : List Char) :
    List UpdateCall :=
  let t := total_batches annotations.length
  (List.range t).map (fun i =>
    { title := name
    , batch := (annotations.drop (i * 40)).take 40
    , status := if i = t - 1 then s2l "completed" else s2l "in_progress"
    , summary := if i = t - 1 then summary else []
    , conclusion := s2l "neutral" })

/-- The outbound requests of create_check_with_annotations in order: the
creating POST (status in_progress, tied to head_sha) followed by the
batched PATCHes. -/
structure CheckRunTrace where
  create : CreateCall
  updates : List UpdateCall
deriving DecidableEq

/-- Embedding of reporter.create_check_with_annotations as the sequence
of API requests it issues when no request fails. -/
def create_check_with_annotations (findings : List RFinding)
    (name head_sha summary : List Char) : CheckRunTrace :=
  { create := { name := name, head_sha := head_sha, status := s2l "in_progress" }
  , updates := updateCalls (findings.map toAnnot) name summary }

/-- The update loop under per-request failure: fails i says whether the
platform rejects PATCH number i.  Each request is sent in order; a
rejected request makes resp.raise_for_status() raise, which aborts the
loop (there is no try around it), so the result is the list of requests
actually sent plus False when an exception escaped. -/
def runWithFailures : List UpdateCall → (Nat → Bool) → List UpdateCall × Bool
  | [], _ => ([], true)
  | c :: rest, fails =>
    if fails 0 then ([c], false)
    else
      let p := runWithFailures rest (fun i => fails (i + 1))
      (c :: p.1, p.2)

/-
Backends (src/ai_pr_reviewer/ai_agent.py copilot_adapter and mock_adapter,
src/pr_review_agent.py call_openrouter).  The HTTP layer is an external
collaborator; its observable outcomes are a timeout, or a response with a
status code, a raw body text and, when the body is well-formed JSON, its
parsed value.  JSON values are modelled by PyVal.
-/

/-- A Python value as produced by json loading: None, bool, int, str,
list, dict. -/
inductive PyVal where
  | pnone : PyVal
  | pbool : Bool → PyVal
  | pint : Int → PyVal
  | pstr : List Char → PyVal
  | plist : List PyVal → PyVal
  | pdict : List (List Char × PyVal) → PyVal

/-- First-match association lookup, the model of Python dict access (dict
literals produced by json never repeat keys). -/
def assocLookup (kvs : List (List Char × PyVal)) (k : List Char) :
    Option PyVal :=
  match kvs with
  | [] => none
  | (k2, v) :: rest => if k2 = k then some v else assocLookup rest k

/-- Python truthiness of a PyVal: None, False, 0, empty string, empty
list and empty dict are falsy. -/
def pyTruthy : PyVal → Bool
  | .pnone => false
  | .pbool b => b
  | .pint n => !(n == 0)
  | .pstr s => !s.isEmpty
  | .plist xs => !xs.isEmpty
  | .pdict kvs => !kvs.isEmpty

def lbraceC : Char := Char.ofNat 123

def rbraceC : Char := Char.ofNat 125

def dquoteC : Char := Char.ofNat 34

def squoteC : Char := Char.ofNat 39

def commaJoin (xs : List (List Char)) : List Char :=
  match xs with
  | [] => []
  | [x] => x
  | x :: rest => x ++ s2l ", " ++ commaJoin rest

mutual

/-- json.dumps of a PyVal (string escaping of quotes, backslashes and
control characters is elided: no statement here serialises such a
string). -/
def jsonDumps : PyVal → List Char
  | .pnone => s2l "null"
  | .pbool b => if b then s2l "true" else s2l "false"
  | .pint n => if n < 0 then s2l "-" ++ natRepr n.natAbs else natRepr n.natAbs
  | .pstr s => dquoteC :: s ++ [dquoteC]
  | .plist xs => '[' :: commaJoin (jsonDumpsList xs) ++ [']']
  | .pdict kvs => lbraceC :: commaJoin (jsonDumpsKVs kvs) ++ [rbraceC]

def jsonDumpsList : List PyVal → List (List Char)
  | [] => []
  | v :: rest => jsonDumps v :: jsonDumpsList rest

def jsonDumpsKVs : List (List Char × PyVal) → List (List Char)
  | [] => []
  | (k, v) :: rest =>
    (dquoteC :: k ++ [dquoteC] ++ s2l ": " ++ jsonDumps v) :: jsonDumpsKVs rest

end

mutual

/-- Python repr of a PyVal (escaping inside string literals elided, as in
jsonDumps). -/
def pyRepr : PyVal → List Char
  | .pnone => s2l "None"
  | .pbool b => if b then s2l "True" else s2l "False"
  | .pint n => if n < 0 then s2l "-" ++ natRepr n.natAbs else natRepr n.natAbs
  | .pstr s => squoteC :: s ++ [squoteC]
  | .plist xs => '[' :: commaJoin (pyReprList xs) ++ [']']
  | .pdict kvs => lbraceC :: commaJoin (pyReprKVs kvs) ++ [rbraceC]

def pyReprList : List PyVal → List (List Char)
  | [] => []
  | v :: rest => pyRepr v :: pyReprList rest

def pyReprKVs : List (List Char × PyVal) → List (List Char)
  | [] => []
  | (k, v) :: rest =>
    (squoteC :: k ++ [squoteC] ++ s2l ": " ++ pyRepr v) :: pyReprKVs rest

end

/-- Python str() of a PyVal: a string prints itself, everything else
prints as its repr. -/
def pyStrVal : PyVal → List Char
  | .pstr s => s
  | v => pyRepr v

/-- JSON whitespace accepted between tokens. -/
def isJsonWs (c : Char) : Bool :=
  c.toNat == 32 || c.toNat == 9 || c.toNat == 10 || c.toNat == 13

/-- Drop an expected literal prefix. -/
def dropLit : List Char → List Char → Option (List Char)
  | [], s => some s
  | _ :: _, [] => none
  | c :: pre, d :: s => if c == d then dropLit pre s else none

mutual

/-- Fueled JSON value parser (model of the stdlib json scanner over the
fragment exercised here: null, true, false, integers, backslash-free
strings, arrays, objects). -/
def jlVal : Nat → List Char → Option (PyVal × List Char)
  | 0, _ => none
  | fuel + 1, s =>
    match s.dropWhile isJsonWs with
    | [] => none
    | c :: rest =>
      if c == 'n' then
        (dropLit (s2l "ull") rest).map (fun r => (.pnone, r))
      else if c == 't' then
        (dropLit (s2l "rue") rest).map (fun r => (.pbool true, r))
      else if c == 'f' then
        (dropLit (s2l "alse") rest).map (fun r => (.pbool false, r))
      else if c == dquoteC then
        let content := rest.takeWhile (fun d => !(d == dquoteC))
        match rest.dropWhile (fun d => !(d == dquoteC)) with
        | _ :: r2 => some (.pstr content, r2)
        | [] => none
      else if c == '[' then
        match (rest.dropWhile isJsonWs) with
        | ']' :: r2 => some (.plist [], r2)
        | _ =>
          match jlVal fuel rest with
          | some (v, r2) => jlArrTail fuel r2 [v]
          | none => none
      else if c == lbraceC then
        match (rest.dropWhile isJsonWs) with
        | d :: r2 =>
          if d == rbraceC then some (.pdict [], r2)
          else
            match jlPair fuel (c :: rest).tail with
            | some (kv, r3) => jlObjTail fuel r3 [kv]
            | none => none
        | [] => none
      else if c == '-' then
        let ds := rest.takeWhile isAsciiDigit
        if ds.isEmpty then none
        else some (.pint (-(digitsVal ds : Int)), rest.dropWhile isAsciiDigit)
      else if isAsciiDigit c then
        let ds := (c :: rest).takeWhile isAsciiDigit
        some (.pint (digitsVal ds : Int), (c :: rest).dropWhile isAsciiDigit)
      else none

def jlArrTail (fuel : Nat) (s : List Char) (acc : List PyVal) :
    Option (PyVal × List Char) :=
  match fuel with
  | 0 => none
  | fuel + 1 =>
    match s.dropWhile isJsonWs with
    | ']' :: r2 => some (.plist acc.reverse, r2)
    | ',' :: r2 =>
      match jlVal fuel r2 with
      | some (v, r3) => jlArrTail fuel r3 (v :: acc)
      | none => none
    | _ => none

def jlPair (fuel : Nat) (s : List Char) :
    Option ((List Char × PyVal) × List Char) :=
  match fuel with
  | 0 => none
  | fuel + 1 =>
    match s.dropWhile isJsonWs with
    | c :: rest =>
      if c == dquoteC then
        let key := rest.takeWhile (fun d => !(d == dquoteC))
        match rest.dropWhile (fun d => !(d == dquoteC)) with
        | _ :: r2 =>
          match r2.dropWhile isJsonWs with
          | ':' :: r3 =>
            match jlVal fuel r3 with
            | some (v, r4) => some ((key, v), r4)
            | none => none
          | _ => none
        | [] => none
      else none
    | [] => none

def jlObjTail (fuel : Nat) (s : List Char)
    (acc : List (List Char × PyVal)) : Option (PyVal × List Char) :=
  match fuel with
  | 0 => none
  | fuel + 1 =>
    match s.dropWhile isJsonWs with
    | c :: r2 =>
      if c == rbraceC then some (.pdict acc.reverse, r2)
      else if c == ',' then
        match jlPair fuel r2 with
        | some (kv, r3) => jlObjTail fuel r3 (kv :: acc)
        | none => none
      else none
    | [] => none

end

/-- json.loads: parse one value and require only whitespace after it. -/
def jsonLoads (s : List Char) : Option PyVal :=
  match jlVal (2 * s.length + 8) s with
  | some (v, rest) => if (rest.dropWhile isJsonWs).isEmpty then some v else none
  | none => none

/-- Parse status of the response body: r.json() either yields a value or
raises on malformed JSON. -/
inductive Body where
  | malformed : Body
  | json : PyVal → Body

/-- Observable outcome of the one HTTP POST a backend makes: a timeout
(requests raises) or a response with its status code, its raw text and
its body parse status. -/
inductive Outcome where
  | timeout : Outcome
  | resp : Nat → List Char → Body → Outcome

/-
The three texts below stand for str(ex) of the exceptions raised by the
HTTP layer (requests.Timeout, HTTPError from raise_for_status, the JSON
decode error); their exact wording belongs to that external library, so
representative fixed strings model them.
-/

def timeoutErrText : List Char := s2l "request timed out"

def httpErrText (c : Nat) : List Char := s2l "HTTP error " ++ natRepr c

def jsonErrText : List Char := s2l "invalid JSON in response"

/-- The dict literal of ai_agent.py line 56: summary carries the error
text, findings is empty. -/
def errorSummaryDict (msg : List Char) : PyVal :=
  .pdict [(s2l "summary", .pstr msg), (s2l "findings", .plist [])]

/-- The dict literal of ai_agent.py lines 52-53: summary is
str(data)[:1000], findings is empty. -/
def copilotFallback (data : PyVal) : PyVal :=
  .pdict [ (s2l "summary", .pstr ((pyStrVal data).take 1000))
         , (s2l "findings", .plist []) ]

/-- The fixed reply of ai_agent.mock_adapter (lines 58-64). -/
def mock_adapter : PyVal :=
  .pdict
    [ (s2l "summary", .pstr (s2l "- MOCK: No Copilot configured."))
    , (s2l "findings", .plist
        [ .pdict
            [ (s2l "file", .pstr (s2l "src/example.py"))
            , (s2l "line", .pint 10)
            , (s2l "type", .pstr (s2l "style"))
            , (s2l "severity", .pstr (s2l "low"))
            , (s2l "message", .pstr (s2l "Unused import"))
            , (s2l "suggestion", .pstr (s2l "Remove it.")) ] ]) ]

/-- Embedding of ai_agent.copilot_adapter (lines 28-56).  hasCreds models
the presence of COPILOT_AGENT_URL and COPILOT_AGENT_TOKEN; without them
the mock reply is returned before any HTTP call.  The whole HTTP call and
response handling sits inside one try whose except returns the error
summary dict, so every failing outcome lands there and nothing escapes. -/
def copilot_adapter (hasCreds : Bool) (o : Outcome) : PyVal :=
  if !hasCreds then mock_adapter
  else
    match o with
    | .timeout =>
      errorSummaryDict (s2l "Copilot agent call failed: " ++ timeoutErrText)
    | .resp c _ body =>
      if 400 ≤ c then
        errorSummaryDict (s2l "Copilot agent call failed: " ++ httpErrText c)
      else
        match body with
        | .malformed =>
          errorSummaryDict (s2l "Copilot agent call failed: " ++ jsonErrText)
        | .json data =>
          match data with
          | .pdict kvs =>
            match assocLookup kvs (s2l "review") with
            | some v => v
            | none =>
              match assocLookup kvs (s2l "output") with
              | some (.pstr s) =>
                match jsonLoads s with
                | some (.pdict pk) =>
                  (assocLookup pk (s2l "review")).getD (.pdict pk)
                | some _ => copilotFallback data
                | none => copilotFallback data
              | some _ => copilotFallback data
              | none => copilotFallback data
          | _ => copilotFallback data

/-- ai_agent.generate_review (lines 5-12): the AI_AGENT_TYPE
discriminator selects the copilot adapter, anything else the mock. -/
def generate_review (agentType : List Char) (hasCreds : Bool)
    (o : Outcome) : PyVal :=
  if agentType = s2l "copilot" then copilot_adapter hasCreds o
  else mock_adapter

/-- The text-extraction expression of pr_review_agent.py lines 140-144,
with its enclosing try: any failure of the subscripting or attribute
access falls back to json.dumps(data). -/
def openrouterExtract (data : PyVal) : PyVal :=
  match data with
  | .pdict kvs =>
    match (assocLookup kvs (s2l "choices")).getD (.plist []) with
    | .plist (c0 :: _) =>
      match c0 with
      | .pdict ckvs =>
        match (assocLookup ckvs (s2l "message")).getD (.pdict []) with
        | .pdict mkvs =>
          let t := (assocLookup mkvs (s2l "content")).getD (.pstr [])
          if pyTruthy t then t
          else
            let o2 := (assocLookup kvs (s2l "output")).getD .pnone
            if pyTruthy o2 then o2 else .pstr []
        | _ => .pstr (jsonDumps data)
      | _ => .pstr (jsonDumps data)
    | .plist [] => .pstr (jsonDumps data)
    | _ => .pstr (jsonDumps data)
  | _ => .pstr (jsonDumps data)

/-- Embedding of pr_review_agent.call_openrouter (lines 122-145) as a
fallible function: error is a raised exception escaping the function.  A
timeout raises, a status other than exactly 200 raises the RuntimeError
of line 138, and on a 200 with a malformed body resp.json() raises
outside any try; only the extraction of the text is guarded. -/
def call_openrouter (o : Outcome) : Except (List Char) PyVal :=
  match o with
  | .timeout => .error timeoutErrText
  | .resp c raw body =>
    if c ≠ 200 then
      .error (s2l "OpenRouter API error " ++ natRepr c ++ s2l ": " ++ raw)
    else
      match body with
      | .malformed => .error jsonErrText
      | .json data => .ok (openrouterExtract data)

/-
Helper lemmas about lists, characters and the parser used by several of
the claim theorems below.
-/

theorem takeWhile_all_append (p : Char → Bool) (l t : List Char)
    (h : ∀ c ∈ l, p c = true) :
    (l ++ t).takeWhile p = l ++ t.takeWhile p := by
  induction l with
  | nil => simp
  | cons c cs ih =>
    have hc : p c = true := h c (by simp)
    simp [List.takeWhile, hc]
    exact ih (fun d hd => h d (by simp [hd]))

theorem dropWhile_all_append (p : Char → Bool) (l t : List Char)
    (h : ∀ c ∈ l, p c = true) :
    (l ++ t).dropWhile p = t.dropWhile p := by
  induction l with
  | nil => simp
  | cons c cs ih =>
    have hc : p c = true := h c (by simp)
    simp [List.dropWhile, hc]
    exact ih (fun d hd => h d (by simp [hd]))

theorem takeWhile_cons_false (p : Char → Bool) (c : Char) (t : List Char)
    (h : p c = false) : (c :: t).takeWhile p = [] := by
  simp [List.takeWhile, h]

theorem dropWhile_cons_false (p : Char → Bool) (c : Char) (t : List Char)
    (h : p c = false) : (c :: t).dropWhile p = c :: t := by
  simp [List.dropWhile, h]

theorem dropWhile_length_le (p : Char → Bool) (l : List Char) :
    (l.dropWhile p).length ≤ l.length := by
  induction l with
  | nil => simp
  | cons c cs ih =>
    by_cases hc : p c
    · simp [List.dropWhile, hc]; omega
    · simp [List.dropWhile, hc]

theorem dropWhile_eq_self_head_false (p : Char → Bool) (c : Char)
    (t : List Char) (h : (c :: t).dropWhile p = c :: t) : p c = false := by
  by_cases hc : p c
  · exfalso
    rw [List.dropWhile_cons_of_pos hc] at h
    have := dropWhile_length_le p t
    rw [h] at this
    simp at this
  · simpa using hc

theorem dropWhile_eq_self_of_length (p : Char → Bool) (l : List Char)
    (h : (l.dropWhile p).length = l.length) : l.dropWhile p = l := by
  induction l with
  | nil => simp
  | cons c cs ih =>
    by_cases hc : p c
    · exfalso
      rw [List.dropWhile_cons_of_pos hc] at h
      have := dropWhile_length_le p cs
      simp at h
      omega
    · rw [List.dropWhile_cons_of_neg hc]

theorem mem_of_mem_dropWhile (p : Char → Bool) (l : List Char) (a : Char)
    (h : a ∈ l.dropWhile p) : a ∈ l :=
  (List.dropWhile_sublist p (l := l)).mem h

theorem dropWhile_head_false (p : Char → Bool) (l : List Char) (c : Char)
    (t : List Char) (h : l.dropWhile p = c :: t) : p c = false := by
  induction l with
  | nil => simp at h
  | cons d ds ih =>
    by_cases hd : p d
    · rw [List.dropWhile_cons_of_pos hd] at h; exact ih h
    · rw [List.dropWhile_cons_of_neg hd] at h
      obtain ⟨rfl, rfl⟩ := by simpa using h
      simpa using hd

theorem dropWhile_ne_nil_of_mem (p : Char → Bool) (l : List Char)
    (c : Char) (hc : c ∈ l) (hp : p c = false) : l.dropWhile p ≠ [] := by
  induction l with
  | nil => simp at hc
  | cons d ds ih =>
    by_cases hd : p d
    · rw [List.dropWhile_cons_of_pos hd]
      rcases List.mem_cons.mp hc with h1 | h2
      · subst h1; rw [hd] at hp; simp at hp
      · exact ih h2
    · rw [List.dropWhile_cons_of_neg hd]; simp

theorem mem_takeWhile_pred (p : Char → Bool) (l : List Char) (a : Char)
    (h : a ∈ l.takeWhile p) : p a = true := by
  induction l with
  | nil => simp at h
  | cons c cs ih =>
    by_cases hc : p c
    · rw [List.takeWhile_cons_of_pos hc] at h
      rcases List.mem_cons.mp h with h1 | h2
      · subst h1; exact hc
      · exact ih h2
    · rw [List.takeWhile_cons_of_neg hc] at h; simp at h

theorem pyStrip_eq_self (l : List Char)
    (h1 : l.dropWhile isPySpace = l)
    (h2 : l.reverse.dropWhile isPySpace = l.reverse) :
    pyStrip l = l := by
  simp [pyStrip, h1, h2]

theorem strip_self_parts (l : List Char) (h : pyStrip l = l) :
    l.dropWhile isPySpace = l ∧
    l.reverse.dropWhile isPySpace = l.reverse := by
  unfold pyStrip at h
  have hlen1 : ((l.dropWhile isPySpace).reverse.dropWhile isPySpace).length
      = l.length := by
    have := congrArg List.length h
    simpa using this
  have hle1 : ((l.dropWhile isPySpace).reverse.dropWhile isPySpace).length
      ≤ (l.dropWhile isPySpace).length := by
    have := dropWhile_length_le isPySpace (l.dropWhile isPySpace).reverse
    simpa using this
  have hle2 : (l.dropWhile isPySpace).length ≤ l.length :=
    dropWhile_length_le isPySpace l
  have hlen2 : (l.dropWhile isPySpace).length = l.length := by omega
  have hd : l.dropWhile isPySpace = l :=
    dropWhile_eq_self_of_length isPySpace l hlen2
  refine ⟨hd, ?_⟩
  rw [hd] at h
  have : (l.reverse.dropWhile isPySpace).reverse = l := h
  have h3 : l.reverse.dropWhile isPySpace = l.reverse := by
    have := congrArg List.reverse this
    simpa using this
  exact h3

theorem pyStrip_of_dropWhile_ne_nil (m : List Char) (c : Char)
    (t : List Char) (hm : m = c :: t) (hc : isPySpace c = false)
    (hdw : m.dropWhile isPySpace = m) : pyStrip m ≠ [] := by
  subst hm
  unfold pyStrip
  rw [hdw]
  intro hfalse
  have h1 : (c :: t).reverse.dropWhile isPySpace ≠ [] := by
    apply dropWhile_ne_nil_of_mem isPySpace _ c _ hc
    simp
  have h2 : (c :: t).reverse.dropWhile isPySpace = [] := by
    have := congrArg List.reverse hfalse
    simpa using this
  exact h1 h2

theorem toNat_ofNat_digit (d : Nat) (h : d < 10) :
    (Char.ofNat (48 + d)).toNat = 48 + d := by
  interval_cases d <;> decide

theorem natReprAux_all_digits (fuel n : Nat) :
    ∀ c ∈ natReprAux fuel n, isAsciiDigit c = true := by
  induction fuel generalizing n with
  | zero =>
    intro c hc
    rw [natReprAux] at hc
    rw [List.mem_singleton] at hc
    subst hc
    have hlt : n % 10 < 10 := Nat.mod_lt _ (by omega)
    simp [isAsciiDigit, toNat_ofNat_digit _ hlt]
    omega
  | succ fuel ih =>
    intro c hc
    rw [natReprAux] at hc
    by_cases h : n < 10
    · rw [if_pos h, List.mem_singleton] at hc
      subst hc
      simp [isAsciiDigit, toNat_ofNat_digit n h]
      omega
    · rw [if_neg h, List.mem_append, List.mem_singleton] at hc
      rcases hc with hc | rfl
      · exact ih (n / 10) c hc
      · have hlt : n % 10 < 10 := Nat.mod_lt _ (by omega)
        simp [isAsciiDigit, toNat_ofNat_digit _ hlt]
        omega

theorem natRepr_all_digits (n : Nat) :
    ∀ c ∈ natRepr n, isAsciiDigit c = true :=
  natReprAux_all_digits n n

theorem natRepr_ne_nil (n : Nat) : natRepr n ≠ [] := by
  unfold natRepr
  cases n with
  | zero => simp [natReprAux]
  | succ k =>
    rw [natReprAux]
    by_cases h : k + 1 < 10 <;> simp [h]

theorem digitsVal_append_one (xs : List Char) (c : Char) :
    digitsVal (xs ++ [c]) = 10 * digitsVal xs + (c.toNat - 48) := by
  simp [digitsVal, List.foldl_append]

theorem digitsVal_natReprAux (fuel n : Nat) (h : n ≤ fuel) :
    digitsVal (natReprAux fuel n) = n := by
  induction fuel generalizing n with
  | zero =>
    have hn : n = 0 := by omega
    subst hn
    decide
  | succ fuel ih =>
    rw [natReprAux]
    by_cases h10 : n < 10
    · rw [if_pos h10]
      simp [digitsVal, toNat_ofNat_digit n h10]
    · rw [if_neg h10, digitsVal_append_one]
      have hle : n / 10 ≤ fuel := by omega
      rw [ih _ hle]
      have hlt : n % 10 < 10 := Nat.mod_lt _ (by omega)
      rw [toNat_ofNat_digit _ hlt]
      omega

theorem digitsVal_natRepr (n : Nat) : digitsVal (natRepr n) = n :=
  digitsVal_natReprAux n n (Nat.le_refl n)

theorem digit_not_space (c : Char) (h : isAsciiDigit c = true) :
    isPySpace c = false := by
  simp [isAsciiDigit, Bool.and_eq_true, decide_eq_true_eq] at h
  simp [isPySpace, Bool.or_eq_false_iff, beq_eq_false_iff_ne]
  omega

theorem digit_not_break (c : Char) (h : isAsciiDigit c = true) :
    isLineBreak c = false := by
  simp [isAsciiDigit, Bool.and_eq_true, decide_eq_true_eq] at h
  simp [isLineBreak, Bool.or_eq_false_iff, beq_eq_false_iff_ne]
  omega

theorem digit_ne_colon (c : Char) (h : isAsciiDigit c = true) :
    (c == ':') = false := by
  rw [beq_eq_false_iff_ne]
  rintro rfl
  exact absurd h (by decide)

theorem splitLines_breakfree (l : List Char)
    (h : ∀ c ∈ l, isLineBreak c = false) : splitLines l = [l] := by
  induction l with
  | nil => rfl
  | cons c cs ih =>
    have hc : isLineBreak c = false := h c (by simp)
    rw [splitLines, if_neg (by simp [hc])]
    rw [ih (fun d hd => h d (by simp [hd]))]

theorem splitLines_append_nl (l t : List Char)
    (h : ∀ c ∈ l, isLineBreak c = false) :
    splitLines (l ++ '\n' :: t) = l :: splitLines t := by
  induction l with
  | nil =>
    simp only [List.nil_append]
    rw [splitLines, if_pos (by decide)]
  | cons c cs ih =>
    have hc : isLineBreak c = false := h c (by simp)
    simp only [List.cons_append]
    rw [splitLines, if_neg (by simp [hc])]
    rw [ih (fun d hd => h d (by simp [hd]))]

theorem foldl_parseStep (ls : List (List Char)) (fs : List Finding)
    (ss : List (List Char)) :
    ls.foldl parseStep (fs, ss)
      = (fs ++ ls.filterMap matchLine,
         ss ++ ls.filter (fun l => (matchLine l).isNone)) := by
  induction ls generalizing fs ss with
  | nil => simp
  | cons l rest ih =>
    rw [List.foldl_cons]
    cases hm : matchLine l with
    | some f =>
      rw [show parseStep (fs, ss) l = (fs ++ [f], ss) by
        simp [parseStep, hm]]
      rw [ih]
      simp [List.filterMap_cons, List.filter_cons, hm]
    | none =>
      rw [show parseStep (fs, ss) l = (fs, ss ++ [l]) by
        simp [parseStep, hm]]
      rw [ih]
      simp [List.filterMap_cons, List.filter_cons, hm]

/-- The lines the parser iterates over, after splitting, stripping and
dropping empties. -/
def cleanLines (text : List Char) : List (List Char) :=
  ((splitLines text).map pyStrip).filter (fun l => !l.isEmpty)

theorem parse_findings_eq (text : List Char) :
    parse_findings text
      = (joinNL (((cleanLines text).filter
            (fun l => (matchLine l).isNone)).take 20),
         (cleanLines text).filterMap matchLine) := by
  unfold parse_findings cleanLines
  simp only [foldl_parseStep]
  simp

/-- A block of well-formed lines (each nonempty, already stripped, free
of line-boundary characters) cleans up to exactly itself. -/
theorem cleanLines_joinNL (lines : List (List Char))
    (h : ∀ l ∈ lines, l ≠ [] ∧ pyStrip l = l ∧
      ∀ c ∈ l, isLineBreak c = false) :
    cleanLines (joinNL lines) = lines := by
  induction lines with
  | nil => rfl
  | cons l rest ih =>
    obtain ⟨hne, hstrip, hbr⟩ := h l (by simp)
    have hrest : ∀ x ∈ rest, x ≠ [] ∧ pyStrip x = x ∧
        ∀ c ∈ x, isLineBreak c = false :=
      fun x hx => h x (by simp [hx])
    cases rest with
    | nil =>
      show cleanLines l = [l]
      unfold cleanLines
      rw [splitLines_breakfree l hbr]
      simp [hstrip, hne]
    | cons r rest2 =>
      have hjoin : joinNL (l :: r :: rest2) = l ++ '\n' :: joinNL (r :: rest2) :=
        rfl
      unfold cleanLines
      rw [hjoin, splitLines_append_nl l _ hbr]
      simp only [List.map_cons, List.filter_cons]
      rw [hstrip]
      have : (!l.isEmpty) = true := by
        cases l with
        | nil => exact absurd rfl hne
        | cons a b => rfl
      rw [if_pos this]
      have ihr := ih hrest
      unfold cleanLines at ihr
      rw [ihr]

/-- Computing the regex match on a rendered line path:n - msg, for a
colon-free nonempty path and a nonempty message, both invariant under
stripping. -/
theorem matchLine_rendered (path msg : List Char) (n : Nat)
    (hpne : path ≠ []) (hpc : ':' ∉ path)
    (hpstrip : pyStrip path = path)
    (hmne : msg ≠ []) (hmstrip : pyStrip msg = msg) :
    matchLine (path ++ ':' :: (natRepr n ++ ' ' :: '-' :: ' ' :: msg))
      = some ⟨path, n, msg⟩ := by
  obtain ⟨hmd, _⟩ := strip_self_parts msg hmstrip
  have hall : ∀ c ∈ path, (!(c == ':')) = true := by
    intro c hc
    have : c ≠ ':' := fun e => hpc (e ▸ hc)
    simp [this]
  simp only [matchLine]
  rw [takeWhile_all_append _ path _ hall,
    takeWhile_cons_false _ ':' _ (by decide), List.append_nil,
    dropWhile_all_append _ path _ hall,
    dropWhile_cons_false _ ':' _ (by decide)]
  simp only [if_neg hpne]
  rw [takeWhile_all_append _ _ _ (natRepr_all_digits n),
    takeWhile_cons_false _ ' ' _ (by decide), List.append_nil,
    dropWhile_all_append _ _ _ (natRepr_all_digits n),
    dropWhile_cons_false _ ' ' _ (by decide)]
  simp only [if_neg (natRepr_ne_nil n)]
  rw [List.dropWhile_cons_of_pos (p := isPySpace) (by decide),
    dropWhile_cons_false _ '-' _ (by decide)]
  simp only [show ('-' == '-') = true by decide, if_true]
  rw [List.dropWhile_cons_of_pos (p := isPySpace) (by decide), hmd]
  simp only [if_neg hmne]
  rw [hpstrip, hmstrip, digitsVal_natRepr]

theorem mem_of_mem_pyStrip (s : List Char) (a : Char)
    (h : a ∈ pyStrip s) : a ∈ s := by
  unfold pyStrip at h
  rw [List.mem_reverse] at h
  have h1 := mem_of_mem_dropWhile _ _ _ h
  rw [List.mem_reverse] at h1
  exact mem_of_mem_dropWhile _ _ _ h1

/-- Inversion of a successful line match: the shape the line must have
and the shape of the resulting finding. -/
theorem matchLine_inv (l : List Char) (f : Finding)
    (h : matchLine l = some f) :
    ∃ rest tail,
      l.dropWhile (fun c => !(c == ':')) = ':' :: rest
      ∧ l.takeWhile (fun c => !(c == ':')) ≠ []
      ∧ rest.takeWhile isAsciiDigit ≠ []
      ∧ (rest.dropWhile isAsciiDigit).dropWhile isPySpace = '-' :: tail
      ∧ tail.dropWhile isPySpace ≠ []
      ∧ f = ⟨pyStrip (l.takeWhile (fun c => !(c == ':'))),
             digitsVal (rest.takeWhile isAsciiDigit),
             pyStrip (tail.dropWhile isPySpace)⟩ := by
  simp only [matchLine] at h
  cases hdw : l.dropWhile (fun c => !(c == ':')) with
  | nil => rw [hdw] at h; simp at h
  | cons c0 rest =>
    rw [hdw] at h
    dsimp only [] at h
    have hc0 : c0 = ':' := by
      have := dropWhile_head_false _ _ _ _ hdw
      have : (c0 == ':') = true := by
        cases hb : (c0 == ':') with
        | true => rfl
        | false => rw [hb] at this; simp at this
      exact eq_of_beq this
    by_cases hp : l.takeWhile (fun c => !(c == ':')) = []
    · rw [if_pos hp] at h; simp at h
    · rw [if_neg hp] at h
      by_cases hd : rest.takeWhile isAsciiDigit = []
      · rw [if_pos hd] at h; simp at h
      · rw [if_neg hd] at h
        cases hm2 : (rest.dropWhile isAsciiDigit).dropWhile isPySpace with
        | nil => rw [hm2] at h; simp at h
        | cons c2 tail =>
          rw [hm2] at h
          dsimp only [] at h
          by_cases h2 : (c2 == '-') = true
          · rw [h2] at h
            simp only [if_true] at h
            have hc2 : c2 = '-' := eq_of_beq h2
            by_cases hmsg : tail.dropWhile isPySpace = []
            · rw [if_pos hmsg] at h; simp at h
            · rw [if_neg hmsg] at h
              refine ⟨rest, tail, ?_, hp, hd, ?_, hmsg, ?_⟩
              · rw [hc0]
              · rw [hm2, hc2]
              · injection h with h
                exact h.symm
          · rw [Bool.of_not_eq_true h2] at h
            simp at h

/-- A line that parses as a finding has a colon-free file field. -/
theorem matchLine_file_colon_free (l : List Char) (f : Finding)
    (h : matchLine l = some f) : ':' ∉ f.file := by
  obtain ⟨rest, tail, _, _, _, _, _, hf⟩ := matchLine_inv l f h
  intro hmem
  rw [hf] at hmem
  have h1 := mem_of_mem_pyStrip _ _ hmem
  have h2 := mem_takeWhile_pred _ _ _ h1
  simp at h2

/-- A line that parses as a finding has a nonempty message field. -/
theorem matchLine_message_ne_nil (l : List Char) (f : Finding)
    (h : matchLine l = some f) : f.message ≠ [] := by
  obtain ⟨rest, tail, _, _, _, _, hmsg, hf⟩ := matchLine_inv l f h
  rw [hf]
  cases hm : tail.dropWhile isPySpace with
  | nil => exact absurd hm hmsg
  | cons c t =>
    have hc : isPySpace c = false := dropWhile_head_false _ _ _ _ hm
    exact pyStrip_of_dropWhile_ne_nil (c :: t) c t rfl hc
      (dropWhile_cons_false _ _ _ hc)

/-- Parsing a single break-free stripped nonempty line that matches. -/
theorem parse_one_match (l : List Char) (f : Finding) (hne : l ≠ [])
    (hstrip : pyStrip l = l) (hbr : ∀ c ∈ l, isLineBreak c = false)
    (hm : matchLine l = some f) : parse_findings l = ([], [f]) := by
  rw [parse_findings_eq]
  have hc : cleanLines l = [l] := by
    have := cleanLines_joinNL [l]
      (by intro x hx; rw [List.mem_singleton] at hx; subst hx
          exact ⟨hne, hstrip, hbr⟩)
    simpa [joinNL] using this
  rw [hc]
  simp [List.filterMap_cons, List.filter_cons, hm, joinNL]

/-- Parsing a single break-free stripped nonempty line that does not
match: it becomes the summary. -/
theorem parse_one_nomatch (l : List Char) (hne : l ≠ [])
    (hstrip : pyStrip l = l) (hbr : ∀ c ∈ l, isLineBreak c = false)
    (hm : matchLine l = none) : parse_findings l = (l, []) := by
  rw [parse_findings_eq]
  have hc : cleanLines l = [l] := by
    have := cleanLines_joinNL [l]
      (by intro x hx; rw [List.mem_singleton] at hx; subst hx
          exact ⟨hne, hstrip, hbr⟩)
    simpa [joinNL] using this
  rw [hc]
  simp [List.filterMap_cons, List.filter_cons, hm, joinNL]

theorem length_filterMap_eq_countP (ls : List (List Char)) :
    (ls.filterMap matchLine).length
      = (ls.filter (fun l => (matchLine l).isSome)).length := by
  induction ls with
  | nil => rfl
  | cons l rest ih =>
    cases hm : matchLine l with
    | some f => simp [List.filterMap_cons, List.filter_cons, hm, ih]
    | none => simp [List.filterMap_cons, List.filter_cons, hm, ih]

/-
Reporter helper lemmas.
-/

theorem total_batches_pos (n : Nat) : 0 < total_batches n := by
  unfold total_batches
  split <;> omega

theorem range_map_last {α : Type} (t : Nat) (ht : 0 < t) (a b : α) :
    (List.range t).map (fun i => if i = t - 1 then a else b)
      = List.replicate (t - 1) b ++ [a] := by
  cases t with
  | zero => omega
  | succ k =>
    rw [List.range_succ, List.map_append]
    have hmap : (List.range k).map (fun i => if i = k + 1 - 1 then a else b)
        = List.replicate k b := by
      refine List.eq_replicate_iff.mpr ⟨by simp, ?_⟩
      intro x hx
      obtain ⟨i, hi, rfl⟩ := List.mem_map.mp hx
      have : i < k := List.mem_range.mp hi
      simp [Nat.ne_of_lt this]
    rw [hmap]
    simp

theorem updateCalls_length (annotations : List Annot)
    (name summary : List Char) :
    (updateCalls annotations name summary).length
      = total_batches annotations.length := by
  simp [updateCalls]

theorem updateCalls_status (annotations : List Annot)
    (name summary : List Char) :
    (updateCalls annotations name summary).map (fun c => c.status)
      = List.replicate (total_batches annotations.length - 1)
          (s2l "in_progress") ++ [s2l "completed"] := by
  unfold updateCalls
  rw [List.map_map]
  exact range_map_last _ (total_batches_pos _) _ _

theorem updateCalls_summary (annotations : List Annot)
    (name summary : List Char) :
    (updateCalls annotations name summary).map (fun c => c.summary)
      = List.replicate (total_batches annotations.length - 1) []
          ++ [summary] := by
  unfold updateCalls
  rw [List.map_map]
  exact range_map_last _ (total_batches_pos _) _ _

theorem updateCalls_batches (annotations : List Annot)
    (name summary : List Char) :
    (updateCalls annotations name summary).map (fun c => c.batch)
      = (List.range (total_batches annotations.length)).map
          (fun i => (annotations.drop (i * 40)).take 40) := by
  unfold updateCalls
  rw [List.map_map]
  rfl

theorem runWithFailures_single (calls : List UpdateCall) (j : Nat)
    (hj : j < calls.length) :
    runWithFailures calls (fun i => i == j)
      = (calls.take (j + 1), false) := by
  induction calls generalizing j with
  | nil => simp at hj
  | cons c rest ih =>
    cases j with
    | zero => simp [runWithFailures]
    | succ k =>
      rw [runWithFailures]
      have h0 : ((0 : Nat) == k + 1) = false := by simp
      rw [if_neg (by simp)]
      have hk : k < rest.length := by simpa using hj
      have hshift : (fun i => (i + 1 : Nat) == k + 1) = (fun i => i == k) := by
        funext i
        cases hik : (i == k) with
        | true => simp [eq_of_beq hik]
        | false =>
          have : i ≠ k := by
            intro e
            rw [e] at hik
            simp at hik
          simp [this]
      rw [hshift, ih k hk]
      simp [List.take_succ_cons]

theorem dropWhile_eq_self_append (p : Char → Bool) (l t : List Char)
    (h : l.dropWhile p = l) (hne : l ≠ []) :
    (l ++ t).dropWhile p = l ++ t := by
  cases l with
  | nil => exact absurd rfl hne
  | cons c cs =>
    have hc : p c = false := dropWhile_eq_self_head_false p c cs h
    rw [List.cons_append]
    exact dropWhile_cons_false p c (cs ++ t) hc

/-- The rendered line path:n - msg is invariant under stripping when
path and msg are. -/
theorem rendered_strip_self (path msg : List Char) (n : Nat)
    (hpne : path ≠ []) (hpstrip : pyStrip path = path)
    (hmne : msg ≠ []) (hmstrip : pyStrip msg = msg) :
    pyStrip (path ++ ':' :: (natRepr n ++ ' ' :: '-' :: ' ' :: msg))
      = path ++ ':' :: (natRepr n ++ ' ' :: '-' :: ' ' :: msg) := by
  obtain ⟨hpd, _⟩ := strip_self_parts path hpstrip
  obtain ⟨_, hmr⟩ := strip_self_parts msg hmstrip
  apply pyStrip_eq_self
  · exact dropWhile_eq_self_append _ _ _ hpd hpne
  · have hrev : (path ++ ':' :: (natRepr n ++ ' ' :: '-' :: ' ' :: msg)).reverse
        = msg.reverse ++ (' ' :: '-' :: ' ' ::
            ((natRepr n).reverse ++ ':' :: path.reverse)) := by
      simp
    rw [hrev]
    exact dropWhile_eq_self_append _ _ _ hmr (by simp [hmne])

/-- Characters of the rendered line are line-break free when path and
msg are. -/
theorem rendered_breakfree (path msg : List Char) (n : Nat)
    (hpbr : ∀ c ∈ path, isLineBreak c = false)
    (hmbr : ∀ c ∈ msg, isLineBreak c = false) :
    ∀ c ∈ path ++ ':' :: (natRepr n ++ ' ' :: '-' :: ' ' :: msg),
      isLineBreak c = false := by
  intro c hc
  simp only [List.mem_append, List.mem_cons] at hc
  rcases hc with h1 | h2 | h3 | h4 | h5 | h6 | h7
  · exact hpbr c h1
  · subst h2; decide
  · exact digit_not_break c (natRepr_all_digits n c h3)
  · subst h4; decide
  · subst h5; decide
  · subst h6; decide
  · exact hmbr c h7

/-
The ten claims.
-/

/-- C1: for every free-text block of well-formed lines (each nonempty,
already trimmed, free of line-boundary characters) of which exactly K
match the per-line grammar of parse_findings, parsing returns exactly the
K findings of the matching lines, in the order those lines appear, and a
summary made of the first up-to-20 non-matching lines joined in their
original order; no malformed line aborts processing of the remaining
lines. -/
theorem parse_findings_leniency (lines : List (List Char))
    (h : ∀ l ∈ lines, l ≠ [] ∧ pyStrip l = l ∧
      ∀ c ∈ l, isLineBreak c = false) :
    (parse_findings (joinNL lines)).2 = lines.filterMap matchLine
    ∧ (parse_findings (joinNL lines)).2.length
        = (lines.filter (fun l => (matchLine l).isSome)).length
    ∧ (parse_findings (joinNL lines)).1
        = joinNL ((lines.filter (fun l => (matchLine l).isNone)).take 20) := by
  rw [parse_findings_eq, cleanLines_joinNL lines h]
  exact ⟨rfl, length_filterMap_eq_countP lines, rfl⟩

theorem parse_findings_leniency_w :
    (∀ l ∈ [s2l "Overall this looks fine.", s2l "app.py:10 - Remove unused import",
        s2l "nitpicks follow", s2l "lib/x.py:3 - rename this"],
      l ≠ [] ∧ pyStrip l = l ∧ ∀ c ∈ l, isLineBreak c = false)
    ∧ ((parse_findings (joinNL [s2l "Overall this looks fine.",
          s2l "app.py:10 - Remove unused import",
          s2l "nitpicks follow", s2l "lib/x.py:3 - rename this"])).2
        = [s2l "Overall this looks fine.", s2l "app.py:10 - Remove unused import",
            s2l "nitpicks follow", s2l "lib/x.py:3 - rename this"].filterMap matchLine
      ∧ (parse_findings (joinNL [s2l "Overall this looks fine.",
            s2l "app.py:10 - Remove unused import",
            s2l "nitpicks follow", s2l "lib/x.py:3 - rename this"])).2.length
          = ([s2l "Overall this looks fine.", s2l "app.py:10 - Remove unused import",
              s2l "nitpicks follow", s2l "lib/x.py:3 - rename this"].filter
              (fun l => (matchLine l).isSome)).length
      ∧ (parse_findings (joinNL [s2l "Overall this looks fine.",
            s2l "app.py:10 - Remove unused import",
            s2l "nitpicks follow", s2l "lib/x.py:3 - rename this"])).1
          = joinNL (([s2l "Overall this looks fine.",
              s2l "app.py:10 - Remove unused import",
              s2l "nitpicks follow", s2l "lib/x.py:3 - rename this"].filter
              (fun l => (matchLine l).isNone)).take 20)) :=
  ⟨by decide, parse_findings_leniency _ (by decide)⟩

/-- C2 counterexample: the empty path contains no colon, yet rendering
it with line 1 and message x gives the line :1 - x, which parses to no
finding (the whole line lands in the summary) instead of the single
finding the claim requires. -/
theorem grammar_roundtrip_cx :
    (parse_findings (s2l ":1 - x")).2 = []
    ∧ (parse_findings (s2l ":1 - x")).1 = s2l ":1 - x" := by
  constructor <;> decide

/-- C2 (amended): for every nonempty colon-free path that is invariant
under stripping and free of line-boundary characters, every line number,
and every nonempty message with no leading dash, likewise stripped and
break-free, parsing the rendered line path:n - msg yields exactly one
finding equal to the inputs and an empty summary.  (The original claim
also admitted the empty path and paths or messages carrying surrounding
whitespace or embedded line breaks, which fail: see the
counterexample.) -/
theorem grammar_roundtrip (path msg : List Char) (n : Nat)
    (_hn : 1 ≤ n)
    (hpne : path ≠ []) (hpc : ':' ∉ path)
    (hpstrip : pyStrip path = path)
    (hpbr : ∀ c ∈ path, isLineBreak c = false)
    (hmne : msg ≠ []) (hmstrip : pyStrip msg = msg)
    (hmbr : ∀ c ∈ msg, isLineBreak c = false)
    (_hmdash : msg.head? ≠ some '-') :
    parse_findings (path ++ ':' :: (natRepr n ++ ' ' :: '-' :: ' ' :: msg))
      = ([], [⟨path, n, msg⟩]) := by
  apply parse_one_match
  · cases path with
    | nil => exact absurd rfl hpne
    | cons c cs => simp
  · exact rendered_strip_self path msg n hpne hpstrip hmne hmstrip
  · exact rendered_breakfree path msg n hpbr hmbr
  · exact matchLine_rendered path msg n hpne hpc hpstrip hmne hmstrip

theorem grammar_roundtrip_w :
    (1 ≤ 7 ∧ s2l "app.py" ≠ [] ∧ ':' ∉ s2l "app.py"
      ∧ pyStrip (s2l "app.py") = s2l "app.py"
      ∧ (∀ c ∈ s2l "app.py", isLineBreak c = false)
      ∧ s2l "fix me" ≠ [] ∧ pyStrip (s2l "fix me") = s2l "fix me"
      ∧ (∀ c ∈ s2l "fix me", isLineBreak c = false)
      ∧ (s2l "fix me").head? ≠ some '-')
    ∧ parse_findings (s2l "app.py" ++ ':' ::
        (natRepr 7 ++ ' ' :: '-' :: ' ' :: s2l "fix me"))
      = ([], [⟨s2l "app.py", 7, s2l "fix me"⟩]) :=
  ⟨by decide,
   grammar_roundtrip (s2l "app.py") (s2l "fix me") 7 (by decide) (by decide)
     (by decide) (by decide) (by decide) (by decide) (by decide) (by decide)
     (by decide)⟩

/-- C6 counterexample: the line a.py:xyz - broken has a dash, and its
left part has a colon whose following token xyz is not a valid positive
integer; the claim requires a finding with line defaulted to 1, but the
parser rejects the line into the summary.  Likewise a.py:0 - m carries
the token 0, which is not a valid positive integer, yet parses to a
finding with line 0, not 1. -/
theorem nonnumeric_token_rejected_cx :
    (parse_findings (s2l "a.py:xyz - broken")).2 = []
    ∧ (parse_findings (s2l "a.py:xyz - broken")).1 = s2l "a.py:xyz - broken"
    ∧ (parse_findings (s2l "a.py:0 - m")).2 = [⟨s2l "a.py", 0, s2l "m"⟩] := by
  refine ⟨by decide, by decide, by decide⟩

/-- C6 (amended): the parser never defaults the line number.  A line
whose first character after the first colon is not a digit is not a
finding at all and is collected into the summary; and a digit token is
taken verbatim, so a token 0 produces line 0, not 1. -/
theorem nonnumeric_token_rejected :
    (∀ (l t : List Char) (c : Char), l ≠ [] → pyStrip l = l →
      (∀ ch ∈ l, isLineBreak ch = false) →
      l.dropWhile (fun ch => !(ch == ':')) = ':' :: c :: t →
      isAsciiDigit c = false →
      parse_findings l = (l, []))
    ∧ parse_findings (s2l "a:0 - m") = ([], [⟨s2l "a", 0, s2l "m"⟩]) := by
  constructor
  · intro l t c hne hstrip hbr hsplit hnd
    have hm : matchLine l = none := by
      simp only [matchLine]
      rw [hsplit]
      dsimp only []
      by_cases hp : l.takeWhile (fun ch => !(ch == ':')) = []
      · rw [if_pos hp]
      · rw [if_neg hp, takeWhile_cons_false _ _ _ hnd]
        simp
    exact parse_one_nomatch l hne hstrip hbr hm
  · decide

theorem nonnumeric_token_rejected_w :
    (s2l "b.py:v2 - note" ≠ [] ∧ pyStrip (s2l "b.py:v2 - note") = s2l "b.py:v2 - note"
      ∧ (∀ ch ∈ s2l "b.py:v2 - note", isLineBreak ch = false)
      ∧ (s2l "b.py:v2 - note").dropWhile (fun ch => !(ch == ':'))
          = ':' :: 'v' :: s2l "2 - note"
      ∧ isAsciiDigit 'v' = false)
    ∧ parse_findings (s2l "b.py:v2 - note") = (s2l "b.py:v2 - note", []) :=
  ⟨by decide,
   nonnumeric_token_rejected.1 (s2l "b.py:v2 - note") (s2l "2 - note") 'v'
     (by decide) (by decide) (by decide) (by decide) (by decide)⟩

/-- C7 counterexample: in the line src:app.py:10 - drop this, the left
part has two colons and the token after the last colon is the valid
positive integer 10; the claim requires a finding with file src:app.py,
but the parser (which splits at the first colon) produces no finding and
sends the line to the summary. -/
theorem finding_file_colon_free_cx :
    (parse_findings (s2l "src:app.py:10 - drop this")).2 = []
    ∧ (parse_findings (s2l "src:app.py:10 - drop this")).1
        = s2l "src:app.py:10 - drop this" := by
  constructor <;> decide

/-- C7 (amended): the parser splits at the first colon, not the last,
and requires the line-number digits to start immediately after it; as a
consequence the file of every finding it ever produces contains no colon
at all, so a path containing a colon never survives parsing. -/
theorem finding_file_colon_free :
    ∀ (text : List Char) (f : Finding),
      f ∈ (parse_findings text).2 → ':' ∉ f.file := by
  intro text f hf
  rw [parse_findings_eq] at hf
  obtain ⟨l, _, hm⟩ := List.mem_filterMap.mp hf
  exact matchLine_file_colon_free l f hm

theorem finding_file_colon_free_w :
    (⟨s2l "w.py", 2, s2l "ok"⟩ : Finding) ∈ (parse_findings (s2l "w.py:2 - ok")).2
    ∧ ':' ∉ (⟨s2l "w.py", 2, s2l "ok"⟩ : Finding).file :=
  ⟨by decide, finding_file_colon_free (s2l "w.py:2 - ok") _ (by decide)⟩

theorem total_batches_eq (n : Nat) :
    total_batches n = if n = 0 then 1 else (n + 39) / 40 := by
  unfold total_batches
  by_cases h : n = 0
  · subst h; norm_num
  · have h2 : (n + 39) / 40 ≠ 0 := by omega
    rw [if_neg h2, if_neg h]

/-- C3: for every findings list of length A, the check-run publisher
issues exactly ceil(A/40) batch update calls (exactly 1 even when A = 0),
in ascending batch order (call i carries the annotation slice starting at
40 i); every call before the last is submitted with status in_progress
and an empty summary, and only the final call carries status completed
together with the full summary text. -/
theorem reporter_batching (findings : List RFinding)
    (name sha summary : List Char) :
    (create_check_with_annotations findings name sha summary).updates.length
      = (if findings.length = 0 then 1 else (findings.length + 39) / 40)
    ∧ (create_check_with_annotations findings name sha summary).updates.map
          (fun c => c.status)
        = List.replicate
            ((create_check_with_annotations findings name sha
                summary).updates.length - 1)
            (s2l "in_progress") ++ [s2l "completed"]
    ∧ (create_check_with_annotations findings name sha summary).updates.map
          (fun c => c.summary)
        = List.replicate
            ((create_check_with_annotations findings name sha
                summary).updates.length - 1)
            [] ++ [summary]
    ∧ (create_check_with_annotations findings name sha summary).updates.map
          (fun c => c.batch)
        = (List.range
            ((create_check_with_annotations findings name sha
                summary).updates.length)).map
            (fun i => ((findings.map toAnnot).drop (i * 40)).take 40) := by
  have hu : (create_check_with_annotations findings name sha summary).updates
      = updateCalls (findings.map toAnnot) name summary := rfl
  have hlen : (create_check_with_annotations findings name sha
      summary).updates.length = total_batches findings.length := by
    rw [hu, updateCalls_length, List.length_map]
  refine ⟨?_, ?_, ?_, ?_⟩
  · rw [hlen, total_batches_eq]
  · rw [hlen, hu, updateCalls_status, List.length_map]
  · rw [hlen, hu, updateCalls_summary, List.length_map]
  · rw [hlen, hu, updateCalls_batches, List.length_map]

/-- C4 counterexample: the publisher does not create the check run in a
pending state: the creating request of a run (here with an empty findings
list) already carries status in_progress. -/
theorem check_run_lifecycle_cx :
    (create_check_with_annotations [] (s2l "AI PR Review") (s2l "headsha")
        (s2l "")).create.status = s2l "in_progress"
    ∧ (create_check_with_annotations [] (s2l "AI PR Review") (s2l "headsha")
        (s2l "")).create.status ≠ s2l "pending" := by
  constructor <;> decide

/-- C4 (amended): the publisher creates the check run tied to the given
head commit, but in state in_progress rather than pending; the status
sequence of the full request trace is then in_progress repeated, closed
by one final completed: the terminal request alone carries completed and
nothing follows it. -/
theorem check_run_lifecycle (findings : List RFinding)
    (name sha summary : List Char) :
    (create_check_with_annotations findings name sha summary).create.head_sha
        = sha
    ∧ (create_check_with_annotations findings name sha summary).create.status
        = s2l "in_progress"
    ∧ ((create_check_with_annotations findings name sha summary).create.status
        :: (create_check_with_annotations findings name sha
            summary).updates.map (fun c => c.status))
      = List.replicate (total_batches (findings.map toAnnot).length)
          (s2l "in_progress") ++ [s2l "completed"] := by
  refine ⟨rfl, rfl, ?_⟩
  have hu : (create_check_with_annotations findings name sha summary).updates
      = updateCalls (findings.map toAnnot) name summary := rfl
  rw [hu, updateCalls_status]
  have ht := total_batches_pos (findings.map toAnnot).length
  cases htb : total_batches (findings.map toAnnot).length with
  | zero => omega
  | succ k =>
    show s2l "in_progress" :: _ = _
    simp [List.replicate_succ]

/-- C5 counterexample: with 41 findings the update sequence has two
batches; when the platform rejects the first update request, only that
one request is ever sent (its status is in_progress), the second batch is
never attempted, and the exception escapes, so the run never reaches
completed — the claim that the publisher skips the failed batch and
continues is false. -/
theorem batch_failure_aborts_cx :
    ((runWithFailures (create_check_with_annotations
          (List.replicate 41 ({} : RFinding)) (s2l "AI PR Review")
          (s2l "sha") (s2l "all good")).updates
        (fun i => i == 0)).1.map (fun c => c.status)
        = [s2l "in_progress"])
    ∧ (create_check_with_annotations (List.replicate 41 ({} : RFinding))
        (s2l "AI PR Review") (s2l "sha") (s2l "all good")).updates.length = 2
    ∧ (runWithFailures (create_check_with_annotations
          (List.replicate 41 ({} : RFinding)) (s2l "AI PR Review")
          (s2l "sha") (s2l "all good")).updates
        (fun i => i == 0)).2 = false := by
  refine ⟨by decide, by decide, by decide⟩

/-- C5 (amended): when the platform rejects batch update j and j is not
the last batch index, the publisher sends exactly the first j+1 update
requests and then aborts: the remaining batches are never attempted, none
of the sent requests carries status completed, and the exception escapes
(raise_for_status is not caught), so the run does not reach the completed
state. -/
theorem batch_failure_aborts (findings : List RFinding)
    (name sha summary : List Char) (j : Nat)
    (hj : j + 1 < (create_check_with_annotations findings name sha
        summary).updates.length) :
    runWithFailures
        (create_check_with_annotations findings name sha summary).updates
        (fun i => i == j)
      = ((create_check_with_annotations findings name sha
            summary).updates.take (j + 1), false)
    ∧ ∀ c ∈ (create_check_with_annotations findings name sha
          summary).updates.take (j + 1),
        c.status = s2l "in_progress" := by
  constructor
  · exact runWithFailures_single _ j (by omega)
  · intro c hc
    have hu : (create_check_with_annotations findings name sha
        summary).updates = updateCalls (findings.map toAnnot) name summary :=
      rfl
    have hlen : (create_check_with_annotations findings name sha
        summary).updates.length
        = total_batches (findings.map toAnnot).length := by
      rw [hu, updateCalls_length]
    have hmap : ((create_check_with_annotations findings name sha
          summary).updates.take (j + 1)).map (fun c => c.status)
        = List.replicate (j + 1) (s2l "in_progress") := by
      rw [List.map_take, hu, updateCalls_status]
      have hle : j + 1
          ≤ (List.replicate (total_batches (findings.map toAnnot).length - 1)
              (s2l "in_progress")).length := by
        rw [List.length_replicate]
        rw [hu, updateCalls_length] at hj
        omega
      rw [List.take_append_of_le_length hle, List.take_replicate]
      congr 1
      rw [hu, updateCalls_length] at hj
      omega
    have hmem : c.status ∈ ((create_check_with_annotations findings name sha
        summary).updates.take (j + 1)).map (fun c => c.status) :=
      List.mem_map_of_mem _ hc
    rw [hmap] at hmem
    exact List.eq_of_mem_replicate hmem

theorem batch_failure_aborts_w :
    (0 + 1 < (create_check_with_annotations
        (List.replicate 41 ({} : RFinding)) (s2l "Review") (s2l "h")
        (s2l "s")).updates.length)
    ∧ (runWithFailures (create_check_with_annotations
          (List.replicate 41 ({} : RFinding)) (s2l "Review") (s2l "h")
          (s2l "s")).updates (fun i => i == 0)
        = ((create_check_with_annotations (List.replicate 41 ({} : RFinding))
            (s2l "Review") (s2l "h") (s2l "s")).updates.take (0 + 1), false)
      ∧ ∀ c ∈ (create_check_with_annotations
            (List.replicate 41 ({} : RFinding)) (s2l "Review") (s2l "h")
            (s2l "s")).updates.take (0 + 1),
          c.status = s2l "in_progress") :=
  ⟨by decide,
   batch_failure_aborts (List.replicate 41 ({} : RFinding)) (s2l "Review")
     (s2l "h") (s2l "s") 0 (by decide)⟩

/-- C8 counterexample: the OpenRouter backend does not return an error
result object on a failing call — the exception escapes it: a response
with HTTP status 500 makes call_openrouter raise the RuntimeError of
line 138 (the error value here) instead of returning a result whose
summary carries the error text. -/
theorem backend_failure_behavior_cx :
    call_openrouter (.resp 500 (s2l "boom") (.json .pnone))
      = .error (s2l "OpenRouter API error 500: boom") := rfl

/-- C8 (amended): the two backend variants behave differently on a
failing call.  The copilot adapter never raises: on a timeout, an HTTP
error status (400 or above), or a well-statused response with a
malformed JSON body, it returns the result dict whose summary carries
the error text and whose findings list is empty.  The OpenRouter variant
instead raises: a timeout, any status other than exactly 200, or a
malformed JSON body makes the exception escape the function, to be
caught only by its orchestrator. -/
theorem backend_failure_behavior :
    copilot_adapter true .timeout
        = errorSummaryDict (s2l "Copilot agent call failed: " ++ timeoutErrText)
    ∧ (∀ (c : Nat) (raw : List Char) (b : Body), 400 ≤ c →
        copilot_adapter true (.resp c raw b)
          = errorSummaryDict (s2l "Copilot agent call failed: " ++ httpErrText c))
    ∧ (∀ (c : Nat) (raw : List Char), c < 400 →
        copilot_adapter true (.resp c raw .malformed)
          = errorSummaryDict (s2l "Copilot agent call failed: " ++ jsonErrText))
    ∧ call_openrouter .timeout = .error timeoutErrText
    ∧ (∀ (c : Nat) (raw : List Char) (b : Body), c ≠ 200 →
        call_openrouter (.resp c raw b)
          = .error (s2l "OpenRouter API error " ++ natRepr c ++ s2l ": " ++ raw))
    ∧ (∀ raw : List Char,
        call_openrouter (.resp 200 raw .malformed) = .error jsonErrText) := by
  refine ⟨rfl, ?_, ?_, rfl, ?_, ?_⟩
  · intro c raw b hc
    simp [copilot_adapter, hc]
  · intro c raw hc
    have h2 : ¬ 400 ≤ c := by omega
    simp [copilot_adapter, h2]
  · intro c raw b hc
    simp [call_openrouter, hc]
  · intro raw
    rfl

theorem backend_failure_behavior_w :
    ((400 ≤ 503) ∧ copilot_adapter true (.resp 503 (s2l "x") (.json .pnone))
        = errorSummaryDict (s2l "Copilot agent call failed: " ++ httpErrText 503))
    ∧ ((404 : Nat) ≠ 200 ∧ call_openrouter (.resp 404 (s2l "nf") (.json .pnone))
        = .error (s2l "OpenRouter API error " ++ natRepr 404 ++ s2l ": "
            ++ s2l "nf")) :=
  ⟨⟨by omega, backend_failure_behavior.2.1 503 (s2l "x") (.json .pnone)
      (by omega)⟩,
   ⟨by omega, backend_failure_behavior.2.2.2.2.1 404 (s2l "nf") (.json .pnone)
      (by omega)⟩⟩

/-- C9 counterexample: parsing a.py:3 - x yields a finding that carries
no severity key at all, and the reporter still turns exactly this finding
into an annotation (one single-annotation batch, level defaulted to
notice); so at the point of annotation the severity is absent, not one of
the three enumerated values. -/
theorem annot_invariant_cx :
    (parse_findings (s2l "a.py:3 - x")).2 = [⟨s2l "a.py", 3, s2l "x"⟩]
    ∧ (toRFinding ⟨s2l "a.py", 3, s2l "x"⟩).severity = none
    ∧ (create_check_with_annotations [toRFinding ⟨s2l "a.py", 3, s2l "x"⟩]
        (s2l "AI PR Review") (s2l "sha") (s2l "")).updates.map
          (fun c => c.batch)
      = [[toAnnot (toRFinding ⟨s2l "a.py", 3, s2l "x"⟩)]]
    ∧ (toAnnot (toRFinding ⟨s2l "a.py", 3, s2l "x"⟩)).level = s2l "notice" := by
  refine ⟨by decide, rfl, by decide, by decide⟩

/-- C9 (amended): the reporter enforces no data-model invariant when
building annotations: it builds one annotation for every finding
unconditionally, mapping any severity other than exactly high or medium
(including an absent one) to the level notice; findings coming from the
free-text parser always have a nonempty message but never carry a
severity. -/
theorem annot_invariant_status :
    (∀ f : RFinding,
      (toAnnot f).level = s2l "notice" ∨ (toAnnot f).level = s2l "warning"
        ∨ (toAnnot f).level = s2l "failure")
    ∧ (∀ f : RFinding, f.severity = none →
        (toAnnot f).level = s2l "notice")
    ∧ (∀ (text : List Char) (g : Finding), g ∈ (parse_findings text).2 →
        g.message ≠ [] ∧ (toRFinding g).severity = none) := by
  refine ⟨?_, ?_, ?_⟩
  · intro f
    simp only [toAnnot]
    unfold severityLevel
    by_cases h1 : f.severity = some (s2l "high")
    · rw [if_pos h1]; right; right; rfl
    · rw [if_neg h1]
      by_cases h2 : f.severity = some (s2l "medium")
      · rw [if_pos h2]; right; left; rfl
      · rw [if_neg h2]; left; rfl
  · intro f h
    simp [toAnnot, severityLevel, h]
  · intro text g hg
    rw [parse_findings_eq] at hg
    obtain ⟨l, _, hm⟩ := List.mem_filterMap.mp hg
    exact ⟨matchLine_message_ne_nil l g hm, rfl⟩

theorem annot_invariant_status_w :
    (⟨s2l "m.py", 1, s2l "z"⟩ : Finding) ∈ (parse_findings (s2l "m.py:1 - z")).2
    ∧ (⟨s2l "m.py", 1, s2l "z"⟩ : Finding).message ≠ []
    ∧ (toRFinding ⟨s2l "m.py", 1, s2l "z"⟩).severity = none :=
  ⟨by decide,
   (annot_invariant_status.2.2 (s2l "m.py:1 - z") _ (by decide)).1,
   (annot_invariant_status.2.2 (s2l "m.py:1 - z") _ (by decide)).2⟩

/-- C10: a finding with no type key is still annotated, with the
annotation message being the literal prefix None: followed by the
finding message (the f-string prints the missing key as None) and the
title defaulting to the literal issue; and every finding produced by the
free-text parser carries no type key, so this applies to all of them. -/
theorem annot_default_title :
    (∀ f : RFinding, f.rtype = none →
      (toAnnot f).message = s2l "None: " ++ pyStrOpt f.message
      ∧ (toAnnot f).title = s2l "issue")
    ∧ (∀ (text : List Char) (g : Finding), g ∈ (parse_findings text).2 →
        (toRFinding g).rtype = none
        ∧ (toAnnot (toRFinding g)).message = s2l "None: " ++ g.message
        ∧ (toAnnot (toRFinding g)).title = s2l "issue") := by
  constructor
  · intro f h
    constructor
    · simp only [toAnnot]
      rw [h]
      rfl
    · simp [toAnnot, h]
  · intro text g _hg
    exact ⟨rfl, rfl, rfl⟩

theorem annot_default_title_w :
    (toRFinding ⟨s2l "c.py", 9, s2l "tidy"⟩).rtype = none
    ∧ (toAnnot (toRFinding ⟨s2l "c.py", 9, s2l "tidy"⟩)).message
        = s2l "None: " ++ pyStrOpt (toRFinding ⟨s2l "c.py", 9, s2l "tidy"⟩).message
    ∧ (toAnnot (toRFinding ⟨s2l "c.py", 9, s2l "tidy"⟩)).title = s2l "issue" :=
  ⟨rfl, (annot_default_title.1 (toRFinding ⟨s2l "c.py", 9, s2l "tidy"⟩) rfl).1,
   (annot_default_title.1 (toRFinding ⟨s2l "c.py", 9, s2l "tidy"⟩) rfl).2⟩

end S2P
